import Mathlib

/-!
# Verification of the PHCIP_JC daily-reporting pipeline

Shallow embedding of the core data pipeline of `dashboard.py`:
the reconciler (`process_data`), the balance categorizer (`pd.cut` bins),
the sidebar filter engine, the red-flag anomaly detector, and the daily
withdrawal trend table, together with theorems settling the specification
claims about them.

Withdrawal amounts are modelled as integers and balance amounts as
rationals (`Rat`); the percent-change ratio and the grand-total average
are computed in `Rat`.  Timestamps are a record of calendar fields, and
fallible dataframe cells (`NaN` / `NaT`) are modelled as `Option`.
-/

namespace PHCIP

/-- A parsed transaction timestamp (pandas `Timestamp`). -/
structure Timestamp where
  year : Nat
  month : Nat
  day : Nat
  hour : Nat
  minute : Nat
  second : Nat
deriving DecidableEq, Repr

/-- A calendar date (what `.dt.date` yields). -/
structure YMD where
  year : Nat
  month : Nat
  day : Nat
deriving DecidableEq, Repr

/-- The calendar date of a timestamp (`Transaction Time .dt.date`). -/
def Timestamp.ymd (t : Timestamp) : YMD := ⟨t.year, t.month, t.day⟩

/-- Encode a calendar date as a single natural for comparison;
months have fewer than 32 days and years fewer than 13 months, so this
ordering agrees with chronological order on real dates. -/
def YMD.key (d : YMD) : Nat := (d.year * 16 + d.month) * 32 + d.day

/-- The day/month pair produced by `strftime('%d-%b')` — the year and the
time-of-day are discarded.  This is the trend-table bucket label. -/
structure DayMon where
  day : Nat
  month : Nat
deriving DecidableEq, Repr

/-- Bucket label of a timestamp: `Transaction Time .strftime('%d-%b')`. -/
def Timestamp.dayMon (t : Timestamp) : DayMon := ⟨t.day, t.month⟩

/-- Sort key used by `pd.to_datetime(label, format='%d-%b')`: the label is
re-parsed into a date of the fixed reference year 1900, so the order is
month-major, then day. -/
def DayMon.key (dm : DayMon) : Nat := dm.month * 32 + dm.day

/-- A row of the daily transaction extract after `load_data` normalisation:
`CNIC` has been coerced to a stripped string (so it is never null here),
`Transaction Time` has been parsed with `errors='coerce'` (absent on parse
failure).  Geographic fields are nullable cells. -/
structure TxRec where
  cnic : String
  time : Option Timestamp
  amount : Int
  district : Option String
  lat : Option Rat
  lon : Option Rat
deriving DecidableEq, Repr

/-- A row of the legacy balance extract after `load_data` normalisation:
`MotherCNIC` coerced to a stripped string, plus the `Amount` balance. -/
structure LegRec where
  motherCnic : String
  amount : Rat
deriving DecidableEq, Repr

/-- A row of `merged_df`: one transaction row joined with at most one
legacy row (`none` when the left join found no match). -/
structure MRow where
  tx : TxRec
  leg : Option LegRec
deriving DecidableEq, Repr

/-- `pd.merge(daily_df, legacy_df[['MotherCNIC','Amount']], left_on='CNIC',
right_on='MotherCNIC', how='left')`: each transaction row is paired with
every legacy row whose `MotherCNIC` equals its `CNIC` (in legacy input
order); a transaction row with no match yields a single row with the
legacy columns null. -/
def mergeLeft : List TxRec → List LegRec → List MRow
  | [], _ => []
  | t :: ts, legs =>
      (let ms := legs.filter (fun l => l.motherCnic == t.cnic)
       if ms.isEmpty then [⟨t, none⟩] else ms.map (fun l => ⟨t, some l⟩))
      ++ mergeLeft ts legs

/-- `pd.cut(amount, bins=[-inf, 0, 1000, 5000, 10000, inf],
labels=['No Balance','Low','Medium','High','Very High'])` with the default
right-closed bins. -/
def balanceCategory (a : Rat) : String :=
  if a ≤ 0 then "No Balance"
  else if a ≤ 1000 then "Low"
  else if a ≤ 5000 then "Medium"
  else if a ≤ 10000 then "High"
  else "Very High"

/-- A row of the reconciled relation `processed_df`: the transaction
columns, the legacy columns carried by the merge (`MotherCNIC`, `Amount`,
null when unmatched), and the two derived columns `Status` and
`Balance_Category`.  `CNIC` is kept nullable because downstream code
(`display_df['CNIC'].isna()`) treats it as a nullable cell. -/
structure RRec where
  cnic : Option String
  time : Option Timestamp
  amount : Int
  district : Option String
  lat : Option Rat
  lon : Option Rat
  motherCnic : Option String
  legacyAmount : Option Rat
  status : String
  balanceCat : String
deriving DecidableEq, Repr

/-- `process_data`: left-join the two extracts on `CNIC = MotherCNIC`,
set `Status` to `'Legacy'` iff `MotherCNIC` is non-null in the merged row,
and bucket `Amount.fillna(0)` into `Balance_Category`. -/
def processData (txs : List TxRec) (legs : List LegRec) : List RRec :=
  (mergeLeft txs legs).map (fun m =>
    { cnic := some m.tx.cnic
      time := m.tx.time
      amount := m.tx.amount
      district := m.tx.district
      lat := m.tx.lat
      lon := m.tx.lon
      motherCnic := m.leg.map (·.motherCnic)
      legacyAmount := m.leg.map (·.amount)
      status := if (m.leg.map (·.motherCnic)).isSome then "Legacy" else "Non-Legacy"
      balanceCat := balanceCategory (((m.leg.map (·.amount))).getD 0) })

/-! ## Filter engine (sidebar filters of `main`) -/

/-- The sidebar filter state: the two date pickers, the three categorical
select boxes (value `"All"` deactivates one), and the free-text search box
(the empty string deactivates it, matching `if search_term:`). -/
structure FilterSpec where
  fromD : YMD
  toD : YMD
  status : String
  balance : String
  district : String
  search : String
deriving DecidableEq, Repr

/-- `display_df['Transaction Time'].dt.date >= from_date` conjoined with
`<= to_date`.  A `NaT` timestamp compares `False` on both sides, so rows
with an absent timestamp never pass the (always-applied) date filter. -/
def datePass (s : FilterSpec) (r : RRec) : Bool :=
  match r.time with
  | none => false
  | some t => s.fromD.key ≤ t.ymd.key && t.ymd.key ≤ s.toD.key

/-- Case-insensitive substring containment, the semantics of
`x.str.contains(search_term, case=False, na=False)` on the plain-text
searches the dashboard performs. -/
def containsSub (hay needle : String) : Bool :=
  (hay.toLower.splitOn needle.toLower).length ≥ 2

/-- The string rendering of a nullable cell used by
`display_df.astype(str)` (pandas renders missing cells as `'nan'`). -/
def cellStr : Option String → String
  | none => "nan"
  | some s => s

/-- The string renderings of a row's cells, for the free-text search scan
over every column. -/
def rowStrings (r : RRec) : List String :=
  [cellStr r.cnic,
   (r.time.map (fun t => toString t.year ++ "-" ++ toString t.month ++ "-" ++
      toString t.day)).getD "NaT",
   toString r.amount,
   cellStr r.district,
   (r.lat.map toString).getD "nan",
   (r.lon.map toString).getD "nan",
   cellStr r.motherCnic,
   (r.legacyAmount.map toString).getD "nan",
   r.status,
   r.balanceCat]

/-- The free-text predicate: the search term occurs (case-insensitively)
in the string form of some field of the row. -/
def searchPass (term : String) (r : RRec) : Bool :=
  (rowStrings r).any (fun s => containsSub s term)

/-- The `--- APPLY FILTERS ---` block of `main`: the date-range filter is
always applied; each categorical filter is applied unless its selection is
`'All'` (with `'Blank'` selecting null districts); the search filter is
applied unless the term is empty. -/
def applyFilters (s : FilterSpec) (rs : List RRec) : List RRec :=
  let d1 := rs.filter (datePass s)
  let d2 := if s.status == "All" then d1 else d1.filter (fun r => r.status == s.status)
  let d3 := if s.balance == "All" then d2 else d2.filter (fun r => r.balanceCat == s.balance)
  let d4 := if s.district == "All" then d3
            else if s.district == "Blank" then d3.filter (fun r => r.district == none)
            else d3.filter (fun r => r.district == some s.district)
  if s.search == "" then d4 else d4.filter (searchPass s.search)

/-- `if from_date > to_date: st.sidebar.error(...)`: whether the inverted
date range is reported to the user as a validation error. -/
def dateRangeError (s : FilterSpec) : Bool :=
  s.toD.key < s.fromD.key

/-- The display labels offered by the Legacy Balance select box
(`balance_category_labels`); note they differ from the stored
`Balance_Category` values. -/
def balanceCategoryLabel : String → String
  | "No Balance" => "No Balance (0)"
  | "Low" => "Low (1-1,000)"
  | "Medium" => "Medium (1,001-5,000)"
  | "High" => "High (5,001-10,000)"
  | "Very High" => "Very High (10,001+)"
  | s => s

/-! ## Red-flag anomaly detector -/

/-- The red-flag messages.  Each constructor carries exactly the numbers
the corresponding f-string interpolates: the blank-district and
missing-coordinates messages carry the record count and the distinct-CNIC
count; the missing-CNIC message carries only the record count. -/
inductive Msg where
  | blankDistrict (cnt uniq : Nat)
  | missingCoords (cnt uniq : Nat)
  | missingCnic (cnt : Nat)
  | noIssues
deriving DecidableEq, Repr

/-- The distinct-entity (unique-CNIC) count embedded in a message, when
the message carries one. -/
def msgEntityCount : Msg → Option Nat
  | .blankDistrict _ u => some u
  | .missingCoords _ u => some u
  | .missingCnic _ => none
  | .noIssues => none

/-- `['CNIC'].nunique()`: number of distinct non-null CNIC values
(pandas `nunique` drops nulls). -/
def uniqueCnics (rs : List RRec) : Nat :=
  ((rs.filterMap (·.cnic)).dedup).length

/-- Rows whose `District Name` is null. -/
def blankDistrictRows (rs : List RRec) : List RRec :=
  rs.filter (fun r => r.district == none)

/-- Rows with `Device Latitude` or `Device Longitude` null. -/
def missingCoordRows (rs : List RRec) : List RRec :=
  rs.filter (fun r => r.lat == none || r.lon == none)

/-- Rows whose `CNIC` cell is null. -/
def missingCnicRows (rs : List RRec) : List RRec :=
  rs.filter (fun r => r.cnic == none)

/-- The `--- RED FLAG SECTION ---` of `main`, computed over the relation
it is given (in the source: `display_df`): one message per non-zero
condition, else the single no-issues message. -/
def redFlags (rs : List RRec) : List Msg :=
  let bd := (blankDistrictRows rs).length
  let bdU := uniqueCnics (blankDistrictRows rs)
  let mc := (missingCoordRows rs).length
  let mcU := uniqueCnics (missingCoordRows rs)
  let cn := (missingCnicRows rs).length
  let msgs :=
    (if bd > 0 then [Msg.blankDistrict bd bdU] else []) ++
    (if mc > 0 then [Msg.missingCoords mc mcU] else []) ++
    (if cn > 0 then [Msg.missingCnic cn] else [])
  if msgs.isEmpty then [Msg.noIssues] else msgs

/-- The three record-level counts and two entity-level counts the detector
reports, as one tuple (blank-district records, blank-district CNICs,
missing-coordinate records, missing-coordinate CNICs, missing-CNIC
records). -/
def anomalyCounts (rs : List RRec) : Nat × Nat × Nat × Nat × Nat :=
  ((blankDistrictRows rs).length, uniqueCnics (blankDistrictRows rs),
   (missingCoordRows rs).length, uniqueCnics (missingCoordRows rs),
   (missingCnicRows rs).length)

/-! ## Daily withdrawal trend table -/

/-- The bucket label of a reconciled row:
`trends_df['Transaction Time'].dt.strftime('%d-%b')`; null for `NaT`. -/
def bucketLabel (r : RRec) : Option DayMon :=
  r.time.map Timestamp.dayMon

/-- The label ordering used by
`sort_values('Date', key=pd.to_datetime(x, format='%d-%b'))`. -/
def dmLe (a b : DayMon) : Prop := a.key ≤ b.key

instance : DecidableRel dmLe := fun a b => Nat.decLe a.key b.key

instance : IsTotal DayMon dmLe := ⟨fun a b => Nat.le_total a.key b.key⟩

instance : IsTrans DayMon dmLe := ⟨fun _ _ _ h h' => Nat.le_trans h h'⟩

/-- The distinct bucket labels occurring in the relation, sorted
chronologically within the reference year: `groupby('Date')` forms one
group per distinct label (dropping the null labels of `NaT` rows) and
`sort_values` orders them by the re-parsed date. -/
def sortedLabels (rs : List RRec) : List DayMon :=
  List.insertionSort dmLe ((rs.filterMap bucketLabel).dedup)

/-- The rows of one bucket. -/
def bucketRows (dm : DayMon) (rs : List RRec) : List RRec :=
  rs.filter (fun r => bucketLabel r == some dm)

/-- Summed `Withdrawal Amount` of one bucket. -/
def bucketAmount (dm : DayMon) (rs : List RRec) : Int :=
  ((bucketRows dm rs).map (·.amount)).sum

/-- One row of the `daily` table before the percent-change column:
bucket label, `# of PLWs` (distinct CNICs) and summed amount. -/
structure TrendRow where
  date : DayMon
  plws : Nat
  amount : Int
deriving DecidableEq, Repr

/-- The aggregated, chronologically sorted `daily` table (lines 437–441). -/
def dailyRows (rs : List RRec) : List TrendRow :=
  (sortedLabels rs).map (fun dm =>
    ⟨dm, uniqueCnics (bucketRows dm rs), bucketAmount dm rs⟩)

/-- A cell of the `% of Increase` column.  `dash` is the `'-'` display;
`val x` is the fractional change `x` displayed as a rounded percentage;
`infty` stands for the IEEE infinity that `pct_change` produces when the
previous amount is zero and the current one is not. -/
inductive PctCell where
  | dash
  | val (x : Rat)
  | infty (pos : Bool)
deriving DecidableEq, Repr

/-- One `pct_change` cell given the previous and current amounts, after
`.fillna(0)` and the `'-' if x == 0` display rule: a zero change (and the
0/0 `NaN`, filled to 0) displays the dash. -/
def pctCell (prev cur : Int) : PctCell :=
  if prev = 0 then
    (if cur = 0 then .dash else .infty (0 < cur))
  else
    (let x : Rat := ((cur : Rat) - (prev : Rat)) / (prev : Rat)
     if x = 0 then .dash else .val x)

/-- Tail of the percent-change column. -/
def pctCellsFrom (prev : Int) : List Int → List PctCell
  | [] => []
  | a :: rest => pctCell prev a :: pctCellsFrom a rest

/-- The whole `% of Increase` column for a list of bucket amounts: the
first row's `pct_change` is `NaN`, filled to 0, hence displayed `'-'`. -/
def pctCells : List Int → List PctCell
  | [] => []
  | a :: rest => .dash :: pctCellsFrom a rest

/-- The percent-change column of the daily trend table of a relation. -/
def trendPctCells (rs : List RRec) : List PctCell :=
  pctCells ((dailyRows rs).map (·.amount))

/-- Python `int()` applied to a rational: truncation toward zero. -/
def intTrunc (q : Rat) : Int :=
  if 0 ≤ q then ⌊q⌋ else ⌈q⌉

/-- Sum of the `# of PLWs` column of the daily table. -/
def totalPlws (rs : List RRec) : Nat :=
  ((dailyRows rs).map (·.plws)).sum

/-- `processed_df['Withdrawal Amount'].sum()` over the whole reconciled
relation. -/
def fullAmountSum (rs : List RRec) : Int :=
  (rs.map (·.amount)).sum

/-- Sum of the per-day `Withdrawal Amount` column of the daily table. -/
def dailyAmountSum (rs : List RRec) : Int :=
  ((dailyRows rs).map (·.amount)).sum

/-- The synthetic Grand Total row (lines 448–454). -/
structure GTRow where
  plws : Nat
  amount : Int
  pct : PctCell
  avg : Int
deriving DecidableEq, Repr

/-- Construction of the Grand Total row: entity count is the sum of the
per-day counts, the amount is summed over the entire reconciled relation,
the percent-change cell is the dash, and the average divides the total
amount by the summed entity count with Python `int()`.  When that count is
zero the division raises (`ZeroDivisionError` for plain ints,
`int(inf)`/`int(nan)` otherwise), modelled as `none`. -/
def grandTotalRow (rs : List RRec) : Option GTRow :=
  if totalPlws rs = 0 then none
  else some ⟨totalPlws rs, fullAmountSum rs, .dash,
             intTrunc ((fullAmountSum rs : Rat) / (totalPlws rs : Rat))⟩

/-- The full trend-table construction: the daily rows plus the appended
Grand Total row; `none` when the Grand Total construction raises. -/
def trendTable (rs : List RRec) : Option (List TrendRow × GTRow) :=
  (grandTotalRow rs).map (fun g => (dailyRows rs, g))

/-! ## Claim statements taken verbatim from the specification

Each `specClaim…` definition formalises a specification claim in the
spec's own words, to be compared against the behaviour of the embedded
code.  They are used only to exhibit counterexamples. -/

/-- Spec claim: the reconciled relation has exactly one row per
transaction record, for all inputs. -/
def specClaimC1 (txs : List TxRec) (legs : List LegRec) : Prop :=
  (processData txs legs).length = txs.length

/-- Spec claim: two records belong to the same trend bucket if and only
if they fall on the same calendar date. -/
def specClaimC3 (rs : List RRec) : Prop :=
  ∀ r1 ∈ rs, ∀ r2 ∈ rs, ∀ t1 t2, r1.time = some t1 → r2.time = some t2 →
    (bucketLabel r1 = bucketLabel r2 ↔ t1.ymd = t2.ymd)

/-- Spec percent-change column: every bucket after the first carries the
computed ratio (currentAmount − previousAmount) / previousAmount; only
the first bucket carries the sentinel.  (Tail helper.) -/
def specPctCellsFrom (prev : Int) : List Int → List PctCell
  | [] => []
  | a :: rest => .val (((a : Rat) - (prev : Rat)) / (prev : Rat)) :: specPctCellsFrom a rest

/-- Spec percent-change column: sentinel for the first bucket, computed
ratio for every later bucket. -/
def specPctCells : List Int → List PctCell
  | [] => []
  | a :: rest => .dash :: specPctCellsFrom a rest

/-- Spec claim: the displayed percent-change column coincides with the
spec's column (computed ratio for every bucket after the first, so a zero
change is reported as a computed 0% value, distinct from the sentinel). -/
def specClaimC4 (rs : List RRec) : Prop :=
  trendPctCells rs = specPctCells ((dailyRows rs).map (·.amount))

/-- Spec claim: the per-day amounts sum exactly to the total withdrawal
amount over the entire reconciled relation, for all inputs. -/
def specClaimC5 (rs : List RRec) : Prop :=
  dailyAmountSum rs = fullAmountSum rs

/-- Spec claim: the anomaly counts are independent of the interactive
filter state. -/
def specClaimC7 (rs : List RRec) : Prop :=
  ∀ s : FilterSpec, anomalyCounts (applyFilters s rs) = anomalyCounts rs

/-- Spec claim: every per-condition message carries a distinct-identifier
count, and all-zero conditions yield the single no-issues message. -/
def specClaimC8 (rs : List RRec) : Prop :=
  (∀ m ∈ redFlags rs, m ≠ Msg.noIssues → (msgEntityCount m).isSome) ∧
  ((blankDistrictRows rs).length = 0 ∧ (missingCoordRows rs).length = 0 ∧
    (missingCnicRows rs).length = 0 → redFlags rs = [Msg.noIssues])

/-! ## Concrete example data -/

/-- Build a reconciled row with the given nullable cells; the merge
columns are null and the derived columns are passed explicitly. -/
def mkR (c : Option String) (t : Option Timestamp) (a : Int)
    (d : Option String) (la lo : Option Rat) (st bc : String) : RRec :=
  ⟨c, t, a, d, la, lo, none, none, st, bc⟩

/-- A transaction row with identifier `A`. -/
def txA : TxRec := ⟨"A", none, 100, none, none, none⟩

/-- First legacy-balance row for identifier `A`. -/
def legA1 : LegRec := ⟨"A", 100⟩

/-- Second legacy-balance row for the same identifier `A`. -/
def legA2 : LegRec := ⟨"A", 2000⟩

/-- 18 April 2024, 09:00. -/
def tsY24 : Timestamp := ⟨2024, 4, 18, 9, 0, 0⟩

/-- 18 April 2025, 10:00 — same month-day, different year. -/
def tsY25 : Timestamp := ⟨2025, 4, 18, 10, 0, 0⟩

/-- 21 April 2025. -/
def tsD21 : Timestamp := ⟨2025, 4, 21, 9, 0, 0⟩

/-- 22 April 2025. -/
def tsD22 : Timestamp := ⟨2025, 4, 22, 9, 0, 0⟩

/-- A row dated 18 Apr 2024. -/
def rYearA : RRec := mkR (some "A") (some tsY24) 100 (some "Lahore") (some 31) (some 74) "Non-Legacy" "No Balance"

/-- A row dated 18 Apr 2025 (one year after `rYearA`). -/
def rYearB : RRec := mkR (some "B") (some tsY25) 200 (some "Lahore") (some 31) (some 74) "Non-Legacy" "No Balance"

/-- A row on 21 Apr 2025 with amount 100. -/
def rDay1 : RRec := mkR (some "A") (some tsD21) 100 (some "Lahore") (some 31) (some 74) "Non-Legacy" "No Balance"

/-- A row on 22 Apr 2025 with the same amount 100. -/
def rDay2 : RRec := mkR (some "B") (some tsD22) 100 (some "Lahore") (some 31) (some 74) "Non-Legacy" "No Balance"

/-- A row whose timestamp failed to parse, amount 100. -/
def rNoTime : RRec := mkR (some "A") none 100 (some "Lahore") (some 31) (some 74) "Non-Legacy" "No Balance"

/-- A row on 21 Apr 2025 with amount 50. -/
def rTimed50 : RRec := mkR (some "B") (some tsD21) 50 (some "Lahore") (some 31) (some 74) "Non-Legacy" "No Balance"

/-- A matched row with balance category `Low`. -/
def rLow : RRec := mkR (some "A") (some tsD21) 100 (some "Lahore") (some 31) (some 74) "Legacy" "Low"

/-- A row with a blank district (other fields present). -/
def rBlankD : RRec := mkR (some "A") (some tsD21) 100 none (some 31) (some 74) "Non-Legacy" "No Balance"

/-- A row with a null CNIC cell (other anomaly fields present). -/
def rNoCnic : RRec := mkR none (some tsD21) 100 (some "Lahore") (some 31) (some 74) "Non-Legacy" "No Balance"

/-- A row triggering all three anomaly conditions at once. -/
def rAllMissing : RRec := mkR none none 0 none none none "Non-Legacy" "No Balance"

/-- A filter specification whose date range covers all example rows and
whose other predicates are inactive. -/
def specWide : FilterSpec :=
  ⟨⟨2000, 1, 1⟩, ⟨2100, 1, 1⟩, "All", "All", "All", ""⟩

/-- The wide filter with the Legacy Balance select box set to the `Low`
display label. -/
def specLowLabel : FilterSpec :=
  ⟨⟨2000, 1, 1⟩, ⟨2100, 1, 1⟩, "All", balanceCategoryLabel "Low", "All", ""⟩

/-- The wide filter with the Status select box set to `Legacy`. -/
def specStatusLegacy : FilterSpec :=
  ⟨⟨2000, 1, 1⟩, ⟨2100, 1, 1⟩, "Legacy", "All", "All", ""⟩

/-- A filter specification with an inverted date range. -/
def specInv : FilterSpec :=
  ⟨⟨2100, 1, 1⟩, ⟨2000, 1, 1⟩, "All", "All", "All", ""⟩

/-! ## C1 — one reconciled row per transaction record -/

/-- **C1 (counterexample).** With two legacy-balance rows sharing the
identifier `A` and a single transaction row for `A`, the left join emits
two reconciled rows, so the reconciled row count does not equal the
transaction row count. -/
theorem c1_duplicate_legacy_breaks_row_count :
    ¬ specClaimC1 [txA] [legA1, legA2] := by
  unfold specClaimC1
  decide

/-- **C1 (amended).** When no transaction identifier matches more than one
legacy-balance record, every transaction record produces exactly one
reconciled row: the reconciled relation and the transaction record set
have equal row counts.  (In general each transaction row yields one row
per matching legacy row.) -/
theorem c1_row_count_eq_of_unique_match (txs : List TxRec) (legs : List LegRec)
    (h : ∀ t ∈ txs, (legs.filter (fun l => l.motherCnic == t.cnic)).length ≤ 1) :
    (processData txs legs).length = txs.length := by
  unfold processData
  rw [List.length_map]
  induction txs with
  | nil => rfl
  | cons t ts ih =>
    have ht := h t (List.mem_cons_self t ts)
    have hts : ∀ t' ∈ ts, (legs.filter (fun l => l.motherCnic == t'.cnic)).length ≤ 1 :=
      fun t' h' => h t' (List.mem_cons_of_mem _ h')
    have hstep : mergeLeft (t :: ts) legs =
        (if (legs.filter (fun l => l.motherCnic == t.cnic)).isEmpty
         then [(⟨t, none⟩ : MRow)]
         else (legs.filter (fun l => l.motherCnic == t.cnic)).map (fun l => ⟨t, some l⟩))
        ++ mergeLeft ts legs := rfl
    rw [hstep, List.length_append, ih hts, List.length_cons]
    by_cases he : (legs.filter (fun l => l.motherCnic == t.cnic)).isEmpty
    · rw [if_pos he]
      simp only [List.length_singleton]
      omega
    · rw [if_neg he, List.length_map]
      have h0 : (legs.filter (fun l => l.motherCnic == t.cnic)).length ≠ 0 := by
        simpa [List.isEmpty_iff, List.length_eq_zero] using he
      omega

/-- Witness for C1: a concrete input with unique legacy identifiers where
the row counts agree. -/
theorem c1_witness :
    (∀ t ∈ [txA], (([legA1].filter (fun l => l.motherCnic == t.cnic)).length ≤ 1)) ∧
    (processData [txA] [legA1]).length = [txA].length :=
  ⟨by decide, c1_row_count_eq_of_unique_match [txA] [legA1] (by decide)⟩

/-! ## C2 — balance categorization is a total half-open partition -/

/-- `balanceCategory` hits `No Balance` exactly on `(−∞, 0]`. -/
lemma balanceCategory_eq_noBalance (a : Rat) :
    balanceCategory a = "No Balance" ↔ a ≤ 0 := by
  unfold balanceCategory
  split_ifs <;> simp_all <;> linarith

/-- `balanceCategory` hits `Low` exactly on `(0, 1000]`. -/
lemma balanceCategory_eq_low (a : Rat) :
    balanceCategory a = "Low" ↔ 0 < a ∧ a ≤ 1000 := by
  unfold balanceCategory
  split_ifs <;> simp_all <;>
    first
      | linarith
      | (intros; linarith)
      | (constructor <;> linarith)
      | (constructor <;> intros <;> linarith)

/-- `balanceCategory` hits `Medium` exactly on `(1000, 5000]`. -/
lemma balanceCategory_eq_medium (a : Rat) :
    balanceCategory a = "Medium" ↔ 1000 < a ∧ a ≤ 5000 := by
  unfold balanceCategory
  split_ifs <;> simp_all <;>
    first
      | linarith
      | (intros; linarith)
      | (constructor <;> linarith)
      | (constructor <;> intros <;> linarith)

/-- `balanceCategory` hits `High` exactly on `(5000, 10000]`. -/
lemma balanceCategory_eq_high (a : Rat) :
    balanceCategory a = "High" ↔ 5000 < a ∧ a ≤ 10000 := by
  unfold balanceCategory
  split_ifs <;> simp_all <;>
    first
      | linarith
      | (intros; linarith)
      | (constructor <;> linarith)
      | (constructor <;> intros <;> linarith)

/-- `balanceCategory` hits `Very High` exactly on `(10000, ∞)`. -/
lemma balanceCategory_eq_veryHigh (a : Rat) :
    balanceCategory a = "Very High" ↔ 10000 < a := by
  unfold balanceCategory
  split_ifs <;> simp_all <;> linarith

/-- **C2.** Balance categorization is a total, non-overlapping partition
with right-closed bins — each of the five categories is hit exactly on
its half-open bin, so boundary values resolve to the lower category — and
every reconciled row's category is `balanceCategory` of its matched
legacy amount (0 when unmatched); unmatched rows get `No Balance`. -/
theorem c2_balance_category_partition :
    (∀ a : Rat,
      (balanceCategory a = "No Balance" ↔ a ≤ 0) ∧
      (balanceCategory a = "Low" ↔ 0 < a ∧ a ≤ 1000) ∧
      (balanceCategory a = "Medium" ↔ 1000 < a ∧ a ≤ 5000) ∧
      (balanceCategory a = "High" ↔ 5000 < a ∧ a ≤ 10000) ∧
      (balanceCategory a = "Very High" ↔ 10000 < a)) ∧
    (∀ txs legs, ∀ r ∈ processData txs legs,
      r.balanceCat = balanceCategory (r.legacyAmount.getD 0) ∧
      (r.legacyAmount = none → r.balanceCat = "No Balance") ∧
      (r.status = "Non-Legacy" → r.balanceCat = "No Balance")) := by
  constructor
  · intro a
    exact ⟨balanceCategory_eq_noBalance a, balanceCategory_eq_low a,
           balanceCategory_eq_medium a, balanceCategory_eq_high a,
           balanceCategory_eq_veryHigh a⟩
  · intro txs legs r hr
    unfold processData at hr
    rw [List.mem_map] at hr
    obtain ⟨m, _, rfl⟩ := hr
    refine ⟨rfl, ?_, ?_⟩
    · intro h
      show balanceCategory ((m.leg.map (·.amount)).getD 0) = "No Balance"
      rw [show m.leg.map (·.amount) = none from h]
      decide
    · intro h
      cases hleg : m.leg with
      | some l =>
        rw [hleg] at h
        simp at h
      | none =>
        show balanceCategory ((Option.map (fun x => x.amount)
          (none : Option LegRec)).getD 0) = "No Balance"
        decide

/-- Witness for C2: the matched row of a concrete reconciliation carries
the category computed from its legacy amount. -/
theorem c2_witness :
    (⟨some "A", none, 100, none, none, none, some "A", some (100 : Rat),
        "Legacy", "Low"⟩ : RRec) ∈ processData [txA] [legA1] ∧
    (⟨some "A", none, 100, none, none, none, some "A", some (100 : Rat),
        "Legacy", "Low"⟩ : RRec).balanceCat =
      balanceCategory ((some (100 : Rat)).getD 0) := by
  have hmem : (⟨some "A", none, 100, none, none, none, some "A", some (100 : Rat),
      "Legacy", "Low"⟩ : RRec) ∈ processData [txA] [legA1] := by decide
  exact ⟨hmem, (c2_balance_category_partition.2 [txA] [legA1] _ hmem).1⟩

/-! ## C3 — trend buckets and their ordering -/

/-- **C3 (counterexample).** Two records one year apart on the same
month-day (18 Apr 2024 and 18 Apr 2025) receive the same `%d-%b` bucket
label even though they fall on different calendar dates, so bucketing is
not at calendar-day granularity on relations spanning more than one
year. -/
theorem c3_year_discarded_counterexample :
    ¬ specClaimC3 [rYearA, rYearB] := by
  intro h
  have hiff := h rYearA (List.mem_cons_self _ _)
    rYearB (List.mem_cons_of_mem _ (List.mem_cons_self _ _))
    tsY24 tsY25 rfl rfl
  exact absurd (hiff.mp (by decide)) (by decide)

/-- **C3 (amended).** The trend aggregator buckets records by the
day/month pair of their timestamp (year and time-of-day discarded): two
records share a bucket iff they agree on day-of-month and month; the
bucket label sequence is sorted by the underlying re-parsed date (month
then day), not by the label string; and the labels are exactly those
occurring in the relation. -/
theorem c3_buckets_by_day_month (rs : List RRec) :
    (sortedLabels rs).Sorted dmLe ∧
    (∀ r1 ∈ rs, ∀ r2 ∈ rs, ∀ t1 t2, r1.time = some t1 → r2.time = some t2 →
      (bucketLabel r1 = bucketLabel r2 ↔ (t1.day = t2.day ∧ t1.month = t2.month))) ∧
    (∀ dm, dm ∈ sortedLabels rs ↔ ∃ r ∈ rs, bucketLabel r = some dm) := by
  refine ⟨List.sorted_insertionSort dmLe _, ?_, ?_⟩
  · intro r1 _ r2 _ t1 t2 ht1 ht2
    simp [bucketLabel, ht1, ht2, Timestamp.dayMon, DayMon.mk.injEq]
  · intro dm
    rw [sortedLabels, List.mem_insertionSort, List.mem_dedup, List.mem_filterMap]

/-- Witness for C3 at a concrete two-record relation. -/
theorem c3_witness :
    (sortedLabels [rDay1, rDay2]).Sorted dmLe ∧
    (bucketLabel rDay1 = bucketLabel rDay2 ↔
      (tsD21.day = tsD22.day ∧ tsD21.month = tsD22.month)) ∧
    ((⟨21, 4⟩ : DayMon) ∈ sortedLabels [rDay1, rDay2] ↔
      ∃ r ∈ [rDay1, rDay2], bucketLabel r = some ⟨21, 4⟩) := by
  obtain ⟨hs, hb, hm⟩ := c3_buckets_by_day_month [rDay1, rDay2]
  exact ⟨hs,
    hb rDay1 (List.mem_cons_self _ _)
      rDay2 (List.mem_cons_of_mem _ (List.mem_cons_self _ _)) tsD21 tsD22 rfl rfl,
    hm ⟨21, 4⟩⟩

/-! ## C4 — percent-change column and its sentinel -/

/-- The tail of the percent-change column pairs each amount with its
predecessor. -/
lemma pctCellsFrom_eq_zip (l : List Int) : ∀ prev : Int,
    pctCellsFrom prev l = (List.zip (prev :: l) l).map (fun p => pctCell p.1 p.2) := by
  induction l with
  | nil => intro prev; rfl
  | cons a rest ih =>
    intro prev
    simp only [pctCellsFrom, List.zip_cons_cons, List.map_cons, ih a]

/-- **C4 (counterexample).** On a relation with two buckets of equal
amounts (100 and 100) the second bucket's percent-change cell is the same
`'-'` dash as the first-bucket sentinel, not a computed 0% value: the
spec's column `[dash, 0%]` differs from the displayed column
`[dash, dash]`. -/
theorem c4_zero_change_shows_sentinel :
    ¬ specClaimC4 [rDay1, rDay2] := by
  unfold specClaimC4
  have h : (dailyRows [rDay1, rDay2]).map (·.amount) = [100, 100] := by decide
  unfold trendPctCells
  rw [h]
  simp [pctCells, pctCellsFrom, pctCell, specPctCells, specPctCellsFrom]

/-- **C4 (amended).** The first chronological bucket always shows the
`'-'` sentinel; every later bucket's cell is computed from the previous
bucket's amount; but because the code displays `'-'` whenever the filled
`pct_change` value is zero, a bucket whose amount equals the previous
bucket's shows the same `'-'` as the sentinel (it is *not* a
distinguishable computed 0%), while a non-zero change shows the computed
ratio. -/
theorem c4_pct_change_cells (rs : List RRec) :
    ((dailyRows rs).map (·.amount) = [] → trendPctCells rs = []) ∧
    (∀ a rest, (dailyRows rs).map (·.amount) = a :: rest →
      trendPctCells rs =
        .dash :: (List.zip (a :: rest) rest).map (fun p => pctCell p.1 p.2)) ∧
    (∀ prev cur : Int, prev ≠ 0 →
      (pctCell prev cur = .dash ↔ cur = prev) ∧
      (cur ≠ prev →
        pctCell prev cur = .val (((cur : Rat) - (prev : Rat)) / (prev : Rat)))) := by
  refine ⟨?_, ?_, ?_⟩
  · intro h
    unfold trendPctCells
    rw [h]
    rfl
  · intro a rest h
    unfold trendPctCells
    rw [h]
    simp only [pctCells, pctCellsFrom_eq_zip]
  · intro prev cur hp
    have hpr : ((prev : Int) : Rat) ≠ 0 := Int.cast_ne_zero.mpr hp
    have hx : (((cur : Rat) - (prev : Rat)) / (prev : Rat) = 0) ↔ cur = prev := by
      rw [div_eq_zero_iff]
      simp [hpr, sub_eq_zero, Int.cast_inj]
    constructor
    · by_cases hc : cur = prev
      · simp [pctCell, hp, hx, hc]
      · simp [pctCell, hp, hx, hc]
    · intro hc
      simp [pctCell, hp, hx, hc]

/-- Witness for C4: the concrete two-bucket relation with amounts 100 and
100, and the conflation at zero change. -/
theorem c4_witness :
    trendPctCells [rDay1, rDay2] =
      .dash :: (List.zip [(100 : Int), 100] [100]).map (fun p => pctCell p.1 p.2) ∧
    (pctCell (100 : Int) 100 = .dash ↔ (100 : Int) = 100) := by
  have h := c4_pct_change_cells [rDay1, rDay2]
  exact ⟨h.2.1 100 [100] (by decide), (h.2.2 100 100 (by decide)).1⟩

/-! ## C5 — per-day sums versus the grand total -/

/-- Summing a pointwise sum of two integer-valued functions over a list
splits into two sums. -/
lemma sum_map_add_int {α : Type} (l : List α) (f g : α → Int) :
    (l.map (fun x => f x + g x)).sum = (l.map f).sum + (l.map g).sum := by
  induction l with
  | nil => simp
  | cons a t ih =>
    simp only [List.map_cons, List.sum_cons, ih]
    ring

/-- Over a duplicate-free list, summing an indicator supported at one
point yields that point's value iff the point occurs. -/
lemma sum_ite_nodup (x : DayMon) (a : Int) :
    ∀ L : List DayMon, L.Nodup →
      (L.map (fun dm => if x = dm then a else 0)).sum = if x ∈ L then a else 0 := by
  intro L
  induction L with
  | nil => intro _; simp
  | cons d t ih =>
    intro hN
    rw [List.nodup_cons] at hN
    by_cases hx : x = d
    · subst hx
      have h0 : (t.map (fun dm => if x = dm then a else 0)).sum = 0 := by
        rw [ih hN.2]
        simp [hN.1]
      simp [List.map_cons, List.sum_cons, h0, List.mem_cons]
    · simp [List.map_cons, List.sum_cons, hx, ih hN.2, List.mem_cons]

/-- Peeling one record off a bucket sum. -/
lemma bucketAmount_cons (dm : DayMon) (r : RRec) (rs : List RRec) :
    bucketAmount dm (r :: rs) =
      (if bucketLabel r = some dm then r.amount else 0) + bucketAmount dm rs := by
  unfold bucketAmount bucketRows
  by_cases h : bucketLabel r = some dm
  · simp [List.filter_cons, h]
  · simp [List.filter_cons, h]

/-- Grouping: summing the per-bucket amounts over a duplicate-free label
list equals summing the amounts of the records whose label lies in the
list. -/
lemma sum_bucketAmounts (L : List DayMon) (hN : L.Nodup) (rs : List RRec) :
    (L.map (fun dm => bucketAmount dm rs)).sum =
      ((rs.filter (fun r => match bucketLabel r with
          | some dm => decide (dm ∈ L)
          | none => false)).map (·.amount)).sum := by
  induction rs with
  | nil => simp [bucketAmount, bucketRows]
  | cons r rest ih =>
    have hfun : (fun dm => bucketAmount dm (r :: rest)) =
        fun dm => (if bucketLabel r = some dm then r.amount else 0) + bucketAmount dm rest :=
      funext (fun dm => bucketAmount_cons dm r rest)
    rw [hfun, sum_map_add_int, ih]
    cases hbl : bucketLabel r with
    | none =>
      have h0 : (L.map (fun dm => if (none : Option DayMon) = some dm
          then r.amount else 0)).sum = 0 := by
        simp
      rw [h0, List.filter_cons]
      simp [hbl]
    | some x =>
      have hsum : (L.map (fun dm => if (some x : Option DayMon) = some dm
          then r.amount else 0)).sum = if x ∈ L then r.amount else 0 := by
        simp only [Option.some.injEq]
        exact sum_ite_nodup x r.amount L hN
      rw [hsum, List.filter_cons]
      by_cases hx : x ∈ L
      · simp [hbl, hx]
      · simp [hbl, hx]

/-- The per-day amounts of the daily table sum to the total amount of the
records with a present (parseable) timestamp — not of the whole
relation. -/
lemma dailyAmountSum_eq_presentSum (rs : List RRec) :
    dailyAmountSum rs = ((rs.filter (fun r => r.time.isSome)).map (·.amount)).sum := by
  unfold dailyAmountSum dailyRows
  rw [List.map_map]
  have hmap : ((fun (x : TrendRow) => x.amount) ∘
      (fun dm => (⟨dm, uniqueCnics (bucketRows dm rs), bucketAmount dm rs⟩ : TrendRow))) =
      fun dm => bucketAmount dm rs := rfl
  rw [hmap]
  have hN : (sortedLabels rs).Nodup := by
    unfold sortedLabels
    exact ((List.perm_insertionSort dmLe _).nodup_iff).mpr (List.nodup_dedup _)
  rw [sum_bucketAmounts _ hN rs]
  have hfc : rs.filter (fun r => match bucketLabel r with
      | some dm => decide (dm ∈ sortedLabels rs)
      | none => false) = rs.filter (fun r => r.time.isSome) := by
    apply List.filter_congr
    intro r hr
    cases ht : r.time with
    | none => simp [bucketLabel, ht]
    | some t =>
      have hmem : t.dayMon ∈ sortedLabels rs := by
        unfold sortedLabels
        rw [List.mem_insertionSort, List.mem_dedup, List.mem_filterMap]
        exact ⟨r, hr, by simp [bucketLabel, ht]⟩
      simp [bucketLabel, ht, hmem]
  rw [hfc]

/-- **C5 (counterexample).** On a relation containing a record with an
absent timestamp (amount 100) and a dated record (amount 50), the per-day
rows sum to 50 while the grand-total amount sums the entire relation to
150 — the claimed equality fails when a timestamp is absent. -/
theorem c5_absent_timestamp_breaks_total :
    ¬ specClaimC5 [rNoTime, rTimed50] := by
  unfold specClaimC5
  decide

/-- **C5 (amended).** The per-day withdrawal amounts sum exactly to the
total amount over the records whose timestamp is present; in particular,
whenever every timestamp is present this equals the total over the
entire reconciled relation (an absent-timestamp record contributes to
the full total but to no per-day row, so the claimed equality can fail
on such relations).  The grand-total row — whenever its construction
does not fail — has entity count equal to the sum of per-day counts,
amount equal to the sum over the entire reconciled relation, the
not-applicable percent-change dash, and average equal to the truncated
quotient of total amount by total entity count. -/
theorem c5_daily_sums (rs : List RRec) :
    dailyAmountSum rs = ((rs.filter (fun r => r.time.isSome)).map (·.amount)).sum ∧
    ((∀ r ∈ rs, r.time.isSome) → dailyAmountSum rs = fullAmountSum rs) ∧
    (totalPlws rs ≠ 0 →
      grandTotalRow rs = some ⟨totalPlws rs, fullAmountSum rs, .dash,
        intTrunc ((fullAmountSum rs : Rat) / (totalPlws rs : Rat))⟩) := by
  refine ⟨dailyAmountSum_eq_presentSum rs, ?_, ?_⟩
  · intro h
    rw [dailyAmountSum_eq_presentSum rs]
    unfold fullAmountSum
    rw [List.filter_eq_self.mpr h]
  · intro h
    unfold grandTotalRow
    rw [if_neg h]

/-- Witness for C5: the mixed relation exercises the present-timestamp
sum and the grand-total construction; an all-timestamps-present relation
exercises the full-total equality. -/
theorem c5_witness :
    dailyAmountSum [rNoTime, rTimed50] =
      (([rNoTime, rTimed50].filter (fun r => r.time.isSome)).map (·.amount)).sum ∧
    dailyAmountSum [rDay1, rDay2] = fullAmountSum [rDay1, rDay2] ∧
    grandTotalRow [rNoTime, rTimed50] = some ⟨totalPlws [rNoTime, rTimed50],
      fullAmountSum [rNoTime, rTimed50], .dash,
      intTrunc ((fullAmountSum [rNoTime, rTimed50] : Rat) /
        (totalPlws [rNoTime, rTimed50] : Rat))⟩ := by
  have h := c5_daily_sums [rNoTime, rTimed50]
  have h2 := c5_daily_sums [rDay1, rDay2]
  exact ⟨h.1, h2.2.1 (by decide), h.2.2 (by decide)⟩

/-! ## C6 — the balance-category filter -/

/-- **C6 (code bug).** The Legacy Balance select box offers the display
label `'Low (1-1,000)'`, but the filter compares that label against the
stored `Balance_Category` value `'Low'`, which can never match: on a
relation whose single record has category `Low`, selecting the `Low`
label returns the empty set instead of that record, while a comparison
against the category value itself would return it. -/
theorem c6_balance_filter_label_mismatch :
    applyFilters specLowLabel [rLow] = [] ∧
    [rLow].filter (fun r => r.balanceCat == "Low") = [rLow] ∧
    balanceCategoryLabel "Low" ≠ "Low" := by
  decide

/-! ## C7 — anomaly counts versus the filter state -/

/-- The filter engine always yields a sublist of its input relation. -/
lemma applyFilters_sublist (s : FilterSpec) (rs : List RRec) :
    List.Sublist (applyFilters s rs) rs := by
  simp only [applyFilters]
  split_ifs <;>
    (repeat refine List.Sublist.trans (List.filter_sublist _) ?_) <;>
    exact List.Sublist.refl _

/-- Deduplicated length is monotone under list inclusion. -/
lemma dedupLen_mono {l1 l2 : List String} (h : l1 ⊆ l2) :
    l1.dedup.length ≤ l2.dedup.length := by
  rw [← List.card_toFinset, ← List.card_toFinset]
  apply Finset.card_le_card
  intro x hx
  rw [List.mem_toFinset] at hx ⊢
  exact h hx

/-- The distinct-CNIC count is monotone under sublists. -/
lemma uniqueCnics_mono {l1 l2 : List RRec} (h : List.Sublist l1 l2) :
    uniqueCnics l1 ≤ uniqueCnics l2 := by
  unfold uniqueCnics
  exact dedupLen_mono (h.filterMap (·.cnic)).subset

/-- **C7 (counterexample).** The red-flag counts are computed over the
filtered display relation: with one blank-district record of status
`Non-Legacy`, activating the `Legacy` status filter removes the record
and the reported counts change, so they are not independent of the
filter state. -/
theorem c7_filter_changes_counts : ¬ specClaimC7 [rBlankD] :=
  fun h => absurd (h specStatusLegacy) (by decide)

/-- **C7 (amended).** The anomaly detector runs on the filtered display
relation, not the full reconciled relation: its reported counts can
change with the filter state, and for every filter specification each of
its five reported counts is at most the corresponding count over the
full relation. -/
theorem c7_filtered_counts_mono (s : FilterSpec) (rs : List RRec) :
    (anomalyCounts (applyFilters s rs)).1 ≤ (anomalyCounts rs).1 ∧
    (anomalyCounts (applyFilters s rs)).2.1 ≤ (anomalyCounts rs).2.1 ∧
    (anomalyCounts (applyFilters s rs)).2.2.1 ≤ (anomalyCounts rs).2.2.1 ∧
    (anomalyCounts (applyFilters s rs)).2.2.2.1 ≤ (anomalyCounts rs).2.2.2.1 ∧
    (anomalyCounts (applyFilters s rs)).2.2.2.2 ≤ (anomalyCounts rs).2.2.2.2 := by
  have h := applyFilters_sublist s rs
  simp only [anomalyCounts, blankDistrictRows, missingCoordRows, missingCnicRows]
  exact ⟨(h.filter _).length_le, uniqueCnics_mono (h.filter _),
         (h.filter _).length_le, uniqueCnics_mono (h.filter _),
         (h.filter _).length_le⟩

/-! ## C8 — contents of the anomaly messages -/

/-- **C8 (counterexample).** On a relation whose single record has a null
CNIC (and no other anomaly), the only emitted message is the missing-CNIC
message, which carries no distinct-identifier count — refuting the claim
that every condition's message carries both counts. -/
theorem c8_missing_cnic_lacks_entity_count : ¬ specClaimC8 [rNoCnic] := by
  intro h
  have h1 := h.1 (Msg.missingCnic 1) (by decide) (by decide)
  exact absurd h1 (by decide)

/-- **C8 (amended).** When all three anomaly counts are zero exactly one
no-issues message is emitted; a positive blank-district or
missing-coordinates count emits a message carrying both the record count
and the distinct-CNIC count; a positive missing-CNIC count emits a
message carrying the record count only — no entity-level count. -/
theorem c8_message_contents (rs : List RRec) :
    ((blankDistrictRows rs).length = 0 ∧ (missingCoordRows rs).length = 0 ∧
      (missingCnicRows rs).length = 0 → redFlags rs = [Msg.noIssues]) ∧
    ((blankDistrictRows rs).length > 0 →
      Msg.blankDistrict (blankDistrictRows rs).length
        (uniqueCnics (blankDistrictRows rs)) ∈ redFlags rs) ∧
    ((missingCoordRows rs).length > 0 →
      Msg.missingCoords (missingCoordRows rs).length
        (uniqueCnics (missingCoordRows rs)) ∈ redFlags rs) ∧
    ((missingCnicRows rs).length > 0 →
      Msg.missingCnic (missingCnicRows rs).length ∈ redFlags rs) ∧
    (∀ c u, msgEntityCount (Msg.blankDistrict c u) = some u) ∧
    (∀ c u, msgEntityCount (Msg.missingCoords c u) = some u) ∧
    (∀ c, msgEntityCount (Msg.missingCnic c) = none) := by
  refine ⟨?_, ?_, ?_, ?_, fun c u => rfl, fun c u => rfl, fun c => rfl⟩
  · rintro ⟨h1, h2, h3⟩
    unfold redFlags
    simp [h1, h2, h3]
  · intro h
    unfold redFlags
    by_cases h2 : (missingCoordRows rs).length > 0 <;>
      by_cases h3 : (missingCnicRows rs).length > 0 <;>
        simp [h, h2, h3]
  · intro h
    unfold redFlags
    by_cases h1 : (blankDistrictRows rs).length > 0 <;>
      by_cases h3 : (missingCnicRows rs).length > 0 <;>
        simp [h, h1, h3]
  · intro h
    unfold redFlags
    by_cases h1 : (blankDistrictRows rs).length > 0 <;>
      by_cases h2 : (missingCoordRows rs).length > 0 <;>
        simp [h, h1, h2]

/-- Witness for C8 on a record triggering all three conditions. -/
theorem c8_witness :
    Msg.blankDistrict (blankDistrictRows [rAllMissing]).length
      (uniqueCnics (blankDistrictRows [rAllMissing])) ∈ redFlags [rAllMissing] ∧
    Msg.missingCnic (missingCnicRows [rAllMissing]).length ∈ redFlags [rAllMissing] := by
  have h := c8_message_contents [rAllMissing]
  exact ⟨h.2.1 (by decide), h.2.2.2.1 (by decide)⟩

/-! ## C9 — inverted date range -/

/-- **C9.** For every filter specification whose From date is strictly
after its To date, the validation error is surfaced to the user and the
filter conjunction still executes over the literal predicates as given —
no record satisfies the inverted range, so the display set is empty
rather than a crash. -/
theorem c9_inverted_range_reported (s : FilterSpec) (rs : List RRec)
    (h : s.toD.key < s.fromD.key) :
    dateRangeError s = true ∧ applyFilters s rs = [] := by
  constructor
  · simp [dateRangeError, h]
  · have h0 : rs.filter (datePass s) = [] := by
      rw [List.filter_eq_nil_iff]
      intro r _
      cases ht : r.time with
      | none => simp [datePass, ht]
      | some t =>
        simp [datePass, ht]
        omega
    simp only [applyFilters, h0]
    split_ifs <;> simp

/-- Witness for C9 at a concrete inverted range. -/
theorem c9_witness :
    dateRangeError specInv = true ∧ applyFilters specInv [rDay1] = [] :=
  c9_inverted_range_reported specInv [rDay1] (by decide)

/-! ## C10 — all timestamps unparseable -/

/-- **C10.** When every record's timestamp failed to parse, the day
bucketing drops every record, the daily table is empty, the summed
entity count is zero, and the Grand Total construction divides the total
withdrawal amount by zero and raises — the trend table construction does
not complete normally. -/
theorem c10_unparseable_timestamps_crash (rs : List RRec)
    (h : ∀ r ∈ rs, r.time = none) :
    trendTable rs = none := by
  have hl : rs.filterMap bucketLabel = [] := by
    rw [List.filterMap_eq_nil_iff]
    intro r hr
    simp [bucketLabel, h r hr]
  have hsl : sortedLabels rs = [] := by
    unfold sortedLabels
    rw [hl]
    rfl
  have hd : dailyRows rs = [] := by
    unfold dailyRows
    rw [hsl]
    rfl
  have hp : totalPlws rs = 0 := by
    unfold totalPlws
    rw [hd]
    rfl
  unfold trendTable grandTotalRow
  rw [hp]
  simp

/-- Witness for C10 on a one-record relation with an unparseable
timestamp. -/
theorem c10_witness : trendTable [rNoTime] = none :=
  c10_unparseable_timestamps_crash [rNoTime] (by decide)

end PHCIP
